import Mathlib

/-
Verification of the Delta-code OAuth token lifecycle subsystem.

Shallow embedding of packages/core/src/delta/qwenOAuth2.ts (the OAuth2
client, the device-authorization polling flow) and of the behaviour of
SharedTokenManager.getValidCredentials.  The SharedTokenManager
implementation file is not part of the sources available here (only its
test suite and its callers are), so its decision logic is modelled from
the specification, as marked on each such definition.

Conventions: JS numbers that hold epoch milliseconds are Int, elapsed
milliseconds inside the polling loop are Nat, JS `undefined`/`null`
fields are Option, and JS truthiness on strings / numbers is made
explicit via jsTruthyStr / the zero test.
-/

/-- Credential record, from the DeltaCredentials interface
(qwenOAuth2.ts lines 100-107).  All fields are optional there. -/
structure DeltaCredentials where
  access_token : Option String := none
  refresh_token : Option String := none
  id_token : Option String := none
  expiry_date : Option Int := none
  token_type : Option String := none
  resource_url : Option String := none
deriving Repr, DecidableEq

/-- JS truthiness of a possibly-absent string: `undefined`, `null` and
the empty string are falsy. -/
def jsTruthyStr : Option String → Bool
  | none => false
  | some s => s != ""

/-- JS `a || b` on possibly-absent strings (used for
`tokenData.refresh_token || this.credentials.refresh_token`). -/
def jsOrStr (a b : Option String) : Option String :=
  if jsTruthyStr a then a else b

/-- JS `a || fallback` producing a plain string. -/
def jsOrString (a : Option String) (fallback : String) : String :=
  match a with
  | some s => if s != "" then s else fallback
  | none => fallback

/-- TOKEN_REFRESH_BUFFER_MS = 30 * 1000 (qwenOAuth2.ts line 39). -/
def TOKEN_REFRESH_BUFFER_MS : Int := 30 * 1000

/-- DeltaOAuth2Client.isTokenValid (qwenOAuth2.ts lines 446-452):
false when expiry_date is absent, otherwise
`Date.now() < expiry_date - TOKEN_REFRESH_BUFFER_MS`. -/
def isTokenValid (creds : DeltaCredentials) (now : Int) : Bool :=
  match creds.expiry_date with
  | none => false
  | some d => decide (now < d - TOKEN_REFRESH_BUFFER_MS)

/-- fetch Response.ok: status in the 200-299 range. -/
def respOk (status : Nat) : Bool :=
  decide (200 ≤ status) && decide (status < 300)

/-- DeltaOAuth2Client.getAccessToken (qwenOAuth2.ts lines 256-274).
The shared-manager call is abstracted as its outcome (an Except);
the catch block swallows every manager failure, so the function is
total: it returns the locally cached token only when that token is
truthy and isTokenValid holds, otherwise token undefined. -/
def getAccessToken (managerResult : Except String DeltaCredentials)
    (cached : DeltaCredentials) (now : Int) : Option String :=
  match managerResult with
  | Except.ok creds => creds.access_token
  | Except.error _ =>
    if jsTruthyStr cached.access_token && isTokenValid cached now then
      cached.access_token
    else
      none

/-- Error body shape used by the OAuth endpoints (qwenOAuth2.ts
lines 92-95); both fields may be missing on an untyped JS cast. -/
structure ErrorData where
  error : Option String := none
  error_description : Option String := none
deriving Repr, DecidableEq

/-- Body of a token-refresh HTTP response once parsed
(TokenRefreshResponse = TokenRefreshData | ErrorData). -/
inductive TokenRefreshBody where
  | refreshData (access_token : String) (token_type : String)
      (expires_in : Int) (refresh_token : Option String)
      (resource_url : Option String)
  | errBody (e : ErrorData)
deriving Repr, DecidableEq

/-- HTTP response to the refresh POST, as far as refreshAccessToken
inspects it: the status code and the parsed body. -/
structure RefreshHttpResp where
  status : Nat
  body : TokenRefreshBody
deriving Repr, DecidableEq

/-- Observable effect of one DeltaOAuth2Client.refreshAccessToken call:
whether the network POST was issued, whether clearDeltaCredentials was
invoked (deleting the on-disk credential file), and the outcome. -/
structure RefreshEffect where
  networkCalled : Bool
  clearedCredentials : Bool
  result : Except String DeltaCredentials
deriving Repr

/-- DeltaOAuth2Client.refreshAccessToken (qwenOAuth2.ts lines 383-444).
Guard: a falsy refresh_token throws before any network call.  A
non-ok response with status 400 awaits clearDeltaCredentials() and
then throws; any other non-ok status throws without clearing.  An
ok response whose body is error-shaped throws without clearing; a
data body yields the new credential record of lines 429-436. -/
def refreshAccessToken (creds : DeltaCredentials) (resp : RefreshHttpResp)
    (now : Int) : RefreshEffect :=
  if !(jsTruthyStr creds.refresh_token) then
    { networkCalled := false, clearedCredentials := false,
      result := Except.error "No refresh token available" }
  else if !(respOk resp.status) then
    if resp.status == 400 then
      { networkCalled := true, clearedCredentials := true,
        result := Except.error "Refresh token expired or invalid" }
    else
      { networkCalled := true, clearedCredentials := false,
        result := Except.error "Token refresh failed" }
  else
    match resp.body with
    | TokenRefreshBody.errBody _ =>
      { networkCalled := true, clearedCredentials := false,
        result := Except.error "Token refresh failed" }
    | TokenRefreshBody.refreshData atk tty ein nrt rurl =>
      { networkCalled := true, clearedCredentials := false,
        result := Except.ok
          { access_token := some atk,
            token_type := some tty,
            refresh_token := jsOrStr nrt creds.refresh_token,
            resource_url := rurl,
            expiry_date := some (now + ein * 1000) } }

/-- Untyped JSON object returned by the token endpoint, with every
field the source ever reads after its unchecked casts
(DeviceTokenData, DeviceTokenPendingData and ErrorData shapes all
live in this one record, mirroring the JS duck typing). -/
structure TokenJson where
  access_token : Option String := none
  refresh_token : Option String := none
  token_type : Option String := none
  expires_in : Option Int := none
  resource_url : Option String := none
  status : Option String := none
  slowDown : Option Bool := none
  error : Option String := none
  error_description : Option String := none
deriving Repr, DecidableEq

/-- isDeviceTokenSuccess (qwenOAuth2.ts lines 166-176): access_token
present, a string, and of positive length. -/
def isDeviceTokenSuccess (j : TokenJson) : Bool :=
  match j.access_token with
  | some s => decide (0 < s.length)
  | none => false

/-- isDeviceTokenPending (qwenOAuth2.ts lines 181-188). -/
def isDeviceTokenPending (j : TokenJson) : Bool :=
  j.status == some "pending"

/-- isErrorResponse (qwenOAuth2.ts lines 193-200): an `error` key is
present. -/
def isErrorResponse (j : TokenJson) : Bool :=
  j.error.isSome

/-- Value produced by one pollDeviceToken call: either the parsed
DeviceTokenResponse object handed to the caller, or a rejection
carrying a message and the optional `status` property the source
attaches to deliberately constructed errors. -/
inductive DeviceTokenResponseM where
  | body (j : TokenJson)
  | threw (msg : String) (status : Option Nat)
deriving Repr, DecidableEq

/-- The `status` property readable on a rejection
(`(error as Error & { status?: number }).status`). -/
def carriedStatus : DeviceTokenResponseM → Option Nat
  | DeviceTokenResponseM.threw _ s => s
  | DeviceTokenResponseM.body _ => none

/-- DeltaOAuth2Client.pollDeviceToken (qwenOAuth2.ts lines 319-381).
The HTTP response is abstracted as its status plus the JSON parse of
its body (none = unparseable).  On a non-ok status the source parses
the body inside a try block: 400 with error authorization_pending
returns a pending object, 429 with error slow_down returns a pending
object with slowDown true.  For every other non-ok response the
source builds an Error carrying `status` and throws it INSIDE the
same try block, so its own `catch (_parseError)` clause catches it;
that clause then awaits response.text() on a body already consumed
by response.json(), which per the fetch specification rejects with
TypeError "Body is unusable" - an error carrying no status.  The
same happens when the JSON parse itself fails (the body was consumed
before the parse error).  On an ok status the parsed body is
returned; an unparseable ok body rejects from the bare json() call. -/
def pollDeviceToken (status : Nat) (jsonBody : Option TokenJson) :
    DeviceTokenResponseM :=
  if respOk status then
    match jsonBody with
    | some j => DeviceTokenResponseM.body j
    | none => DeviceTokenResponseM.threw "JSON parse failed" none
  else
    match jsonBody with
    | some j =>
      if status == 400 && (j.error == some "authorization_pending") then
        DeviceTokenResponseM.body { status := some "pending" }
      else if status == 429 && (j.error == some "slow_down") then
        DeviceTokenResponseM.body { status := some "pending", slowDown := some true }
      else
        DeviceTokenResponseM.threw "Body is unusable" none
    | none => DeviceTokenResponseM.threw "Body is unusable" none

/-- Credential record built in the device-flow success branch
(qwenOAuth2.ts lines 667-675).  Note the JS truthiness test
`tokenData.expires_in ? Date.now() + expires_in * 1000 : undefined`:
a present but zero expires_in yields an absent expiry_date, and
`tokenData.refresh_token || undefined` drops an empty string. -/
def buildDeviceFlowCredentials (j : TokenJson) (now : Int) : DeltaCredentials :=
  { access_token := j.access_token,
    refresh_token := if jsTruthyStr j.refresh_token then j.refresh_token else none,
    id_token := none,
    token_type := j.token_type,
    resource_url := j.resource_url,
    expiry_date :=
      match j.expires_in with
      | some e => if e != 0 then some (now + e * 1000) else none
      | none => none }

/-- Message of the error thrown at qwenOAuth2.ts lines 757-759 when an
ok-status poll body is error-shaped. -/
def pollFailMsg (j : TokenJson) : String :=
  "Token polling failed: " ++ jsOrString j.error "Unknown error"
    ++ " - " ++ jsOrString j.error_description "No details provided"

/-- Modelled from the spec: SharedTokenManager.getValidCredentials is
not among the available sources (only its test suite and callers are),
so the decision its steps 3-4 take for one caller is modelled from
spec section 4.2: with forceRefresh false a cached record whose
expiry_date is more than the 30s safety buffer in the future is
returned directly with no network call; otherwise a refresh is
required, failing fast with NO_REFRESH_TOKEN when the record lacks a
refresh token, and reaching the network refresh call otherwise.  The
buffer test is the same 30s check the source implements in
DeltaOAuth2Client.isTokenValid. -/
inductive CredDecision where
  | returnCached (c : DeltaCredentials)
  | refreshViaNetwork
  | failNoRefreshToken
deriving Repr, DecidableEq

/-- Modelled from the spec: the outcome of getValidCredentials steps
3-4 for a single caller (no refresh in flight, on-disk file unchanged).
Only the refreshViaNetwork outcome involves a network call. -/
def getValidCredentialsDecision (forceRefresh : Bool)
    (cached : DeltaCredentials) (now : Int) : CredDecision :=
  if !forceRefresh && isTokenValid cached now then
    CredDecision.returnCached cached
  else
    match cached.refresh_token with
    | none => CredDecision.failNoRefreshToken
    | some _ => CredDecision.refreshViaNetwork

/-- Modelled from the spec: events observable by the in-process
single-flight discipline of SharedTokenManager (spec sections 3 and
4.2 step 1).  An arrive event is a getValidCredentials call reaching
the refresh path while the cached credentials are expired and carry a
refresh token; a resolve event is the completion of the outstanding
network refresh with a new credential record. -/
inductive SFEvent where
  | arrive (caller : Nat)
  | resolve (r : DeltaCredentials)

/-- Modelled from the spec: per-process state of the refresh-in-flight
discipline.  inflight holds the identifiers of outstanding refresh
futures (the spec invariant is that it never holds more than one),
refreshCalls counts network refresh calls started, waiting maps each
suspended caller to the future it awaits, and results records each
caller with the credential record its call resolved to. -/
structure SFState where
  inflight : List Nat
  nextId : Nat
  refreshCalls : Nat
  waiting : List (Nat × Nat)
  results : List (Nat × DeltaCredentials)
deriving Repr

/-- Modelled from the spec: the empty initial state. -/
def sfInit : SFState :=
  { inflight := [], nextId := 0, refreshCalls := 0, waiting := [], results := [] }

/-- Modelled from the spec: one event-loop step.  A caller arriving
while a refresh is in flight awaits that same future (spec 4.2 step
1); a caller arriving with none in flight starts the single network
refresh and awaits the new future.  A resolve completes the oldest
outstanding future, delivering its record to every caller awaiting
it. -/
def sfStep (s : SFState) : SFEvent → SFState
  | SFEvent.arrive c =>
    match s.inflight with
    | [] =>
      { inflight := [s.nextId], nextId := s.nextId + 1,
        refreshCalls := s.refreshCalls + 1,
        waiting := (c, s.nextId) :: s.waiting, results := s.results }
    | f :: rest =>
      { inflight := f :: rest, nextId := s.nextId,
        refreshCalls := s.refreshCalls,
        waiting := (c, f) :: s.waiting, results := s.results }
  | SFEvent.resolve r =>
    match s.inflight with
    | [] => s
    | f :: rest =>
      { inflight := rest, nextId := s.nextId,
        refreshCalls := s.refreshCalls,
        waiting := s.waiting.filter (fun p => p.2 != f),
        results := (s.waiting.filter (fun p => p.2 == f)).map
          (fun p => (p.1, r)) ++ s.results }

/-- Modelled from the spec: run a sequence of events. -/
def sfRun (s : SFState) (evs : List SFEvent) : SFState :=
  evs.foldl sfStep s

/-- Modelled from the spec: the concurrent-refresh scenario - N
callers arrive against expired credentials (all before the refresh
network call completes), then the refresh resolves with record r. -/
def sfScenarioEvents (N : Nat) (r : DeltaCredentials) : List SFEvent :=
  (List.range N).map SFEvent.arrive ++ [SFEvent.resolve r]

lemma sfRun_arrivals (cs : List Nat) : ∀ (s : SFState) (f : Nat) (rest : List Nat),
    s.inflight = f :: rest →
    sfRun s (cs.map SFEvent.arrive) =
      { inflight := s.inflight, nextId := s.nextId, refreshCalls := s.refreshCalls,
        waiting := (cs.reverse.map (fun cl => (cl, f))) ++ s.waiting,
        results := s.results } := by
  induction cs with
  | nil =>
    intro s f rest hs
    simp [sfRun]
  | cons a as ih =>
    intro s f rest hs
    have hstep : sfStep s (SFEvent.arrive a) =
        { inflight := f :: rest, nextId := s.nextId, refreshCalls := s.refreshCalls,
          waiting := (a, f) :: s.waiting, results := s.results } := by
      simp [sfStep, hs]
    have h1 : sfRun s ((a :: as).map SFEvent.arrive)
        = sfRun (sfStep s (SFEvent.arrive a)) (as.map SFEvent.arrive) := rfl
    rw [h1, hstep, ih _ f rest rfl]
    simp [hs, List.reverse_cons]

lemma sfStep_inflight_le (s : SFState) (e : SFEvent) (h : s.inflight.length ≤ 1) :
    (sfStep s e).inflight.length ≤ 1 := by
  cases e with
  | arrive c =>
    cases hs : s.inflight with
    | nil => simp [sfStep, hs]
    | cons f rest =>
      have hr : rest.length = 0 := by
        rw [hs, List.length_cons] at h
        omega
      simp [sfStep, hs, hr]
  | resolve r =>
    cases hs : s.inflight with
    | nil =>
      simp only [sfStep, hs]
      simp
    | cons f rest =>
      have hr : rest.length = 0 := by
        rw [hs, List.length_cons] at h
        omega
      simp [sfStep, hs, hr]

lemma filter_map_pair_eq (L : List Nat) (f : Nat) :
    ((L.map (fun cl => (cl, f))).filter (fun p => p.2 == f)) = L.map (fun cl => (cl, f)) := by
  induction L with
  | nil => rfl
  | cons a as ih => simp [List.filter_cons, ih]

/-- C1: within one process, N >= 2 concurrent getValidCredentials calls
arriving while the cached credentials are expired and carry a refresh
token cause exactly one underlying refresh network call; every one of
the N calls resolves to the identical new credential record; and the
single-flight step preserves the invariant that at most one
refresh-in-flight future exists at any time. -/
theorem single_flight_refresh (N : Nat) (hN : 2 ≤ N) (r : DeltaCredentials) :
    (sfRun sfInit (sfScenarioEvents N r)).refreshCalls = 1
    ∧ (sfRun sfInit (sfScenarioEvents N r)).results.length = N
    ∧ (∀ p ∈ (sfRun sfInit (sfScenarioEvents N r)).results, p.2 = r)
    ∧ ∀ (s : SFState) (e : SFEvent),
        s.inflight.length ≤ 1 → (sfStep s e).inflight.length ≤ 1 := by
  obtain ⟨k, rfl⟩ : ∃ k, N = k + 1 := ⟨N - 1, by omega⟩
  have hsplit : sfRun sfInit (sfScenarioEvents (k + 1) r)
      = sfStep (sfRun sfInit ((List.range (k + 1)).map SFEvent.arrive))
          (SFEvent.resolve r) := by
    simp [sfScenarioEvents, sfRun, List.foldl_append]
  have hstep0 : sfStep sfInit (SFEvent.arrive 0) =
      { inflight := [0], nextId := 1, refreshCalls := 1,
        waiting := [(0, 0)], results := [] } := rfl
  have harr : sfRun sfInit ((List.range (k + 1)).map SFEvent.arrive) =
      { inflight := [0], nextId := 1, refreshCalls := 1,
        waiting := ((((List.range k).map Nat.succ).reverse ++ [0]).map (fun cl => (cl, 0))),
        results := [] } := by
    rw [List.range_succ_eq_map]
    have h1 : sfRun sfInit ((0 :: (List.range k).map Nat.succ).map SFEvent.arrive)
        = sfRun (sfStep sfInit (SFEvent.arrive 0))
            (((List.range k).map Nat.succ).map SFEvent.arrive) := rfl
    rw [h1, hstep0, sfRun_arrivals _ _ 0 [] rfl]
    simp
  refine ⟨?_, ?_, ?_, fun s e h => sfStep_inflight_le s e h⟩
  · rw [hsplit, harr]
    simp [sfStep]
  · rw [hsplit, harr]
    simp only [sfStep]
    rw [filter_map_pair_eq]
    simp
  · rw [hsplit, harr]
    intro p hp
    simp only [sfStep] at hp
    rw [filter_map_pair_eq] at hp
    simp only [List.append_nil, List.map_map, List.mem_map] at hp
    obtain ⟨cl, _, rfl⟩ := hp
    rfl

/-- Closed instance of single_flight_refresh at N = 2. -/
theorem single_flight_refresh_instance :
    (2 : Nat) ≤ 2
    ∧ ((sfRun sfInit (sfScenarioEvents 2 { access_token := some "a2" })).refreshCalls = 1
      ∧ (sfRun sfInit (sfScenarioEvents 2 { access_token := some "a2" })).results.length = 2
      ∧ (∀ p ∈ (sfRun sfInit (sfScenarioEvents 2 { access_token := some "a2" })).results,
          p.2 = { access_token := some "a2" })
      ∧ ∀ (s : SFState) (e : SFEvent),
          s.inflight.length ≤ 1 → (sfStep s e).inflight.length ≤ 1) :=
  ⟨by omega, single_flight_refresh 2 (by omega) { access_token := some "a2" }⟩

lemma isTokenValid_iff (creds : DeltaCredentials) (now : Int) :
    isTokenValid creds now = true ↔ ∃ d, creds.expiry_date = some d ∧ now < d - 30000 := by
  cases hd : creds.expiry_date with
  | none => simp [isTokenValid, hd]
  | some d =>
    simp [isTokenValid, hd, TOKEN_REFRESH_BUFFER_MS]

/-- C2: with forceRefresh false, getValidCredentials returns the cached
record (no network call) exactly when its expiry_date is more than the
30 second safety buffer in the future; a record whose expiry_date is
30 seconds or less away, or past, and that carries a refresh token,
takes the network refresh path instead. -/
theorem freshness_buffer_gates_refresh (cached : DeltaCredentials) (now : Int) :
    (getValidCredentialsDecision false cached now = CredDecision.returnCached cached
      ↔ ∃ d, cached.expiry_date = some d ∧ now < d - 30000)
    ∧ (∀ d, cached.expiry_date = some d → d - 30000 ≤ now →
        ∀ rt, cached.refresh_token = some rt →
          getValidCredentialsDecision false cached now = CredDecision.refreshViaNetwork) := by
  have hv := isTokenValid_iff cached now
  refine ⟨?_, ?_⟩
  · cases hb : isTokenValid cached now with
    | false =>
      rw [hb] at hv
      simp only [Bool.false_eq_true, false_iff] at hv
      simp only [getValidCredentialsDecision, Bool.not_false, Bool.true_and, hb,
        Bool.false_eq_true, if_false]
      cases hrt : cached.refresh_token <;> simp [hv]
    | true =>
      rw [hb] at hv
      simp only [true_iff] at hv
      simp [getValidCredentialsDecision, hb, hv]
  · intro d hd hle rt hrt
    have hb : isTokenValid cached now = false := by
      simp [isTokenValid, hd, TOKEN_REFRESH_BUFFER_MS]
      omega
    simp [getValidCredentialsDecision, hb, hrt]

/-- Credentials used to instantiate freshness_buffer_gates_refresh. -/
def c2WitnessCreds : DeltaCredentials :=
  { access_token := some "t", refresh_token := some "r", expiry_date := some 100000 }

/-- Closed instance of freshness_buffer_gates_refresh: an expiry_date
only 1 second away (less than the 30s buffer) forces the refresh
path. -/
theorem freshness_buffer_gates_refresh_instance :
    getValidCredentialsDecision false c2WitnessCreds 99000 = CredDecision.refreshViaNetwork :=
  (freshness_buffer_gates_refresh c2WitnessCreds 99000).2 100000 rfl (by decide) "r" rfl

/-- C3: an expired cached record without a refresh token makes
getValidCredentials fail fast with NO_REFRESH_TOKEN (no network call),
and the source guard in DeltaOAuth2Client.refreshAccessToken likewise
throws before issuing any network request. -/
theorem no_refresh_token_fails_fast (cached : DeltaCredentials) (now : Int)
    (hexp : isTokenValid cached now = false) (hrt : cached.refresh_token = none) :
    getValidCredentialsDecision false cached now = CredDecision.failNoRefreshToken
    ∧ ∀ resp : RefreshHttpResp,
        (refreshAccessToken cached resp now).networkCalled = false
        ∧ (refreshAccessToken cached resp now).result
            = Except.error "No refresh token available" := by
  constructor
  · simp [getValidCredentialsDecision, hexp, hrt]
  · intro resp
    constructor <;> simp [refreshAccessToken, jsTruthyStr, hrt]

/-- Credentials used to instantiate no_refresh_token_fails_fast. -/
def c3WitnessCreds : DeltaCredentials :=
  { access_token := some "expired_token", expiry_date := some (-3600000) }

/-- Refresh response body with an empty error object, for instances. -/
def emptyErrBody : TokenRefreshBody :=
  TokenRefreshBody.errBody { error := none, error_description := none }

/-- A 200 refresh response with an error-shaped body. -/
def resp200 : RefreshHttpResp := { status := 200, body := emptyErrBody }

/-- A 400 refresh response. -/
def resp400 : RefreshHttpResp := { status := 400, body := emptyErrBody }

/-- A 500 refresh response. -/
def resp500 : RefreshHttpResp := { status := 500, body := emptyErrBody }

/-- Closed instance of no_refresh_token_fails_fast. -/
theorem no_refresh_token_fails_fast_instance :
    getValidCredentialsDecision false c3WitnessCreds 0 = CredDecision.failNoRefreshToken
    ∧ (refreshAccessToken c3WitnessCreds resp200 0).networkCalled = false :=
  ⟨(no_refresh_token_fails_fast c3WitnessCreds 0 (by decide) rfl).1,
   ((no_refresh_token_fails_fast c3WitnessCreds 0 (by decide) rfl).2 _).1⟩

/-- C4: a non-success refresh response with HTTP status 400 makes
refreshAccessToken delete the cached credential file (via
clearDeltaCredentials) before surfacing an error; every other
non-success status surfaces an error while leaving the cached
credentials in place. -/
theorem refresh_http400_clears_credentials (creds : DeltaCredentials) (rt : String)
    (hrt : creds.refresh_token = some rt) (hne : rt ≠ "")
    (resp : RefreshHttpResp) (now : Int) :
    (resp.status = 400 →
      (refreshAccessToken creds resp now).clearedCredentials = true
      ∧ (refreshAccessToken creds resp now).networkCalled = true
      ∧ ∃ m, (refreshAccessToken creds resp now).result = Except.error m)
    ∧ (respOk resp.status = false → resp.status ≠ 400 →
      (refreshAccessToken creds resp now).clearedCredentials = false
      ∧ (refreshAccessToken creds resp now).networkCalled = true
      ∧ ∃ m, (refreshAccessToken creds resp now).result = Except.error m) := by
  have htruthy : jsTruthyStr creds.refresh_token = true := by
    simp [jsTruthyStr, hrt, hne]
  constructor
  · intro h400
    have hok : respOk 400 = false := by decide
    simp [refreshAccessToken, htruthy, hok, h400]
  · intro hok hne400
    have h400f : (resp.status == 400) = false := by simp [hne400]
    simp [refreshAccessToken, htruthy, hok, h400f]

/-- Credentials used to instantiate refresh_http400_clears_credentials. -/
def c4WitnessCreds : DeltaCredentials := { refresh_token := some "r1" }

/-- Closed instance of refresh_http400_clears_credentials at statuses
400 and 500. -/
theorem refresh_http400_clears_credentials_instance :
    (refreshAccessToken c4WitnessCreds resp400 0).clearedCredentials = true
    ∧ (refreshAccessToken c4WitnessCreds resp500 0).clearedCredentials = false :=
  ⟨((refresh_http400_clears_credentials c4WitnessCreds "r1" rfl (by decide)
      resp400 0).1 rfl).1,
   ((refresh_http400_clears_credentials c4WitnessCreds "r1" rfl (by decide)
      resp500 0).2 (by decide) (by decide)).1⟩

/-- C5: pollDeviceToken classifies HTTP 400 + authorization_pending as
pending and HTTP 429 + slow_down as pending with slowDown, as claimed;
but for any other non-success response (here HTTP 403 with a parseable
error body) the status-bearing error built by the source is thrown
inside its own try block, caught by the JSON-parse catch clause, and
replaced by the TypeError from re-reading the consumed body - so the
surfaced rejection carries NO HTTP status, contradicting the claim
that callers can classify it by status. -/
theorem poll_nonsuccess_classification :
    pollDeviceToken 400 (some { error := some "authorization_pending" })
      = DeviceTokenResponseM.body { status := some "pending" }
    ∧ pollDeviceToken 429 (some { error := some "slow_down" })
      = DeviceTokenResponseM.body { status := some "pending", slowDown := some true }
    ∧ pollDeviceToken 403 (some { error := some "access_denied",
                                  error_description := some "Access denied" })
      = DeviceTokenResponseM.threw "Body is unusable" none
    ∧ carriedStatus (pollDeviceToken 403
        (some { error := some "access_denied",
                error_description := some "Access denied" })) = none := by
  refine ⟨by decide, by decide, by decide, by decide⟩

/-- Token response used as the C9 counterexample: expires_in present
but equal to zero. -/
def cexTokenJson : TokenJson :=
  { access_token := some "tok", token_type := some "Bearer", expires_in := some 0 }

/-- C9 counterexample: on device-flow success with expires_in present
and equal to 0, the source builds a record with expiry_date absent
(the ternary tests truthiness, and 0 is falsy), not now + 0 * 1000 as
the claim states for every present expires_in. -/
theorem success_expiry_zero_counterexample :
    cexTokenJson.expires_in = some 0
    ∧ (buildDeviceFlowCredentials cexTokenJson 50000).expiry_date = none
    ∧ some (50000 + 0 * 1000) ≠ (buildDeviceFlowCredentials cexTokenJson 50000).expiry_date := by
  refine ⟨rfl, by decide, by decide⟩

/-- Cached record used as the C10 counterexample: an empty-string
access token together with an expiry_date far in the future. -/
def cexCachedCreds : DeltaCredentials :=
  { access_token := some "", refresh_token := some "r", expiry_date := some 1000000 }

/-- C10 counterexample: the cached record passes the 30-second expiry
check, yet getAccessToken does not return the cached access_token
(the empty string) when the shared manager throws - the source also
requires the token to be truthy - refuting the claimed equivalence. -/
theorem getAccessToken_empty_token_counterexample :
    isTokenValid cexCachedCreds 0 = true
    ∧ cexCachedCreds.access_token = some ""
    ∧ getAccessToken (Except.error "manager failure") cexCachedCreds 0 = none
    ∧ (none : Option String) ≠ cexCachedCreds.access_token := by
  refine ⟨by decide, rfl, by decide, by decide⟩

/-- C10 (amended): getAccessToken never rejects (it is a total
function: the catch swallows every shared-manager failure); when the
manager throws it returns the cached access_token exactly when that
token is present and nonempty AND the record passes the local
30-second-buffer expiry check, and a result with token undefined
otherwise. -/
theorem getAccessToken_fallback_behavior (msg : String)
    (cached : DeltaCredentials) (now : Int) :
    (jsTruthyStr cached.access_token = true → isTokenValid cached now = true →
      getAccessToken (Except.error msg) cached now = cached.access_token)
    ∧ (isTokenValid cached now = false →
      getAccessToken (Except.error msg) cached now = none)
    ∧ (jsTruthyStr cached.access_token = false →
      getAccessToken (Except.error msg) cached now = none) := by
  refine ⟨?_, ?_, ?_⟩
  · intro h1 h2
    simp [getAccessToken, h1, h2]
  · intro h2
    simp [getAccessToken, h2]
  · intro h1
    simp [getAccessToken, h1]

/-- Credentials used to instantiate getAccessToken_fallback_behavior. -/
def c10WitnessCreds : DeltaCredentials :=
  { access_token := some "cached_tok", expiry_date := some 1000000 }

/-- Closed instance of getAccessToken_fallback_behavior. -/
theorem getAccessToken_fallback_behavior_instance :
    getAccessToken (Except.error "network down") c10WitnessCreds 0 = some "cached_tok" :=
  (getAccessToken_fallback_behavior "network down" c10WitnessCreds 0).1 (by decide) (by decide)

/-- Prefix test on character lists (helper for String.includes). -/
def charsHasPre : List Char → List Char → Bool
  | [], _ => true
  | _ :: _, [] => false
  | a :: as, b :: bs => a == b && charsHasPre as bs

/-- Substring occurrence test on character lists. -/
def charsHasSub (needle : List Char) : List Char → Bool
  | [] => charsHasPre needle []
  | b :: bs => charsHasPre needle (b :: bs) || charsHasSub needle bs

/-- JS String.prototype.includes, used by the polling-loop catch
clause (errorMessage.includes). -/
def strContains (hay needle : String) : Bool :=
  charsHasSub needle.toList hay.toList

/-- Poll-interval update (qwenOAuth2.ts lines 698-705): slow_down
multiplies the interval by 1.5 capped at 10000ms, any other pending
response resets it to 2000ms.  Every value the source can store in
pollInterval (2000, 3000, 4500, 6750, 10000) is an even integer, so
the Nat computation (current * 3) / 2 agrees exactly with the JS
floating-point multiplication on all reachable states. -/
def nextPollInterval (slowDown : Bool) (current : Nat) : Nat :=
  if slowDown then min ((current * 3) / 2) 10000 else 2000

/-- The cancellation flag at machine time t, for an AuthCancel event
emitted at time cancelAt: once set it stays set. -/
def cancelledAt (cancelAt : Option Nat) (t : Nat) : Bool :=
  match cancelAt with
  | none => false
  | some c => decide (c ≤ t)

/-- One tick loop of the inter-poll wait (qwenOAuth2.ts lines
717-738): every 100ms tick first advances elapsed time, then checks
the cancellation flag, then checks elapsed >= pollInterval; either
check resolves the wait.  Returns the machine time at which the wait
ends.  Fuel interval / 100 + 1 always suffices, since elapsed grows
by 100 per tick. -/
def waitLoopAux (cancelAt : Option Nat) (interval : Nat) :
    Nat → Nat → Nat → Nat
  | 0, t, _ => t
  | fuel + 1, t, elapsed =>
    let t2 := t + 100
    let elapsed2 := elapsed + 100
    if cancelledAt cancelAt t2 then t2
    else if interval ≤ elapsed2 then t2
    else waitLoopAux cancelAt interval fuel t2 elapsed2

/-- Inter-poll wait starting at time t for interval ms, in 100ms
ticks with a cancellation check per tick. -/
def waitLoop (cancelAt : Option Nat) (t : Nat) (interval : Nat) : Nat :=
  waitLoopAux cancelAt interval (interval / 100 + 1) t 0

/-- Terminal outcome of the device-flow polling loop: success,
cancelled, timeout (attempts exhausted), error (HTTP 401 class) or
rate_limited (HTTP 429 class). -/
inductive FlowOutcome where
  | success (creds : DeltaCredentials)
  | cancelled
  | timeout
  | errorTerminal
  | rateLimited
deriving Repr, DecidableEq

/-- Accumulating loop state: machine time, current pollInterval, and
reversed logs of poll issue times and of wait intervals used. -/
structure FlowState where
  t : Nat
  interval : Nat
  pollTimes : List Nat
  waits : List Nat
deriving Repr, DecidableEq

/-- Observable result of a device-flow run: the outcome, the times at
which poll requests were issued, the wait intervals used between
polls, the final machine time and the credential record persisted to
the on-disk file (some only on the success path, which awaits
cacheDeltaCredentials before returning). -/
structure FlowRun where
  outcome : FlowOutcome
  pollTimes : List Nat
  waits : List Nat
  finalTime : Nat
  saved : Option DeltaCredentials
deriving Repr, DecidableEq

/-- Package the loop state into a run result. -/
def flowReturn (o : FlowOutcome) (st : FlowState)
    (saved : Option DeltaCredentials) : FlowRun :=
  { outcome := o, pollTimes := st.pollTimes.reverse, waits := st.waits.reverse,
    finalTime := st.t, saved := saved }

/-- State after the pending-path wait: pollInterval updated per
nextPollInterval, the (intended) wait interval logged, and time
advanced to the end of the tick loop. -/
def afterWait (cancelAt : Option Nat) (st : FlowState) (sd : Bool) : FlowState :=
  { t := waitLoop cancelAt st.t (nextPollInterval sd st.interval),
    interval := nextPollInterval sd st.interval,
    pollTimes := st.pollTimes,
    waits := nextPollInterval sd st.interval :: st.waits }

/-- Polling loop of authWithDeltaDeviceFlow (qwenOAuth2.ts lines
643-810), one loop iteration per fuel unit.  resps gives, per attempt
index, the value that pollDeviceToken call produced.  Branch order is
the source order: pre-poll cancellation check; poll; success guard
(build credentials, persist, return success); pending guard (update
interval, tick-wait, post-wait cancellation check, continue); error
body guard (throw, caught below); an ok body matching none of the
guards falls out of the try block and the loop continues immediately.
A thrown error is classified by the catch clause: message containing
401 or status 401 ends the flow in error, 429 likewise in
rate_limited, otherwise after a pre-wait cancellation check the loop
sleeps one pollInterval (a plain setTimeout, no ticks) and retries;
an error thrown from an error-shaped ok body carries no status
property. -/
def runPollLoop (resps : Nat → DeviceTokenResponseM) (cancelAt : Option Nat) :
    Nat → Nat → FlowState → FlowRun
  | 0, _, st => flowReturn FlowOutcome.timeout st none
  | fuel + 1, attempt, st =>
    if cancelledAt cancelAt st.t then flowReturn FlowOutcome.cancelled st none
    else
      let st1 : FlowState := { st with pollTimes := st.t :: st.pollTimes }
      match resps attempt with
      | DeviceTokenResponseM.body j =>
        if isDeviceTokenSuccess j then
          flowReturn
            (FlowOutcome.success (buildDeviceFlowCredentials j (Int.ofNat st1.t))) st1
            (some (buildDeviceFlowCredentials j (Int.ofNat st1.t)))
        else if isDeviceTokenPending j then
          let st2 := afterWait cancelAt st1 (j.slowDown == some true)
          if cancelledAt cancelAt st2.t then flowReturn FlowOutcome.cancelled st2 none
          else runPollLoop resps cancelAt fuel (attempt + 1) st2
        else if isErrorResponse j then
          if strContains (pollFailMsg j) "401" then
            flowReturn FlowOutcome.errorTerminal st1 none
          else if strContains (pollFailMsg j) "429" then
            flowReturn FlowOutcome.rateLimited st1 none
          else if cancelledAt cancelAt st1.t then
            flowReturn FlowOutcome.cancelled st1 none
          else
            runPollLoop resps cancelAt fuel (attempt + 1)
              { st1 with t := st1.t + st1.interval }
        else runPollLoop resps cancelAt fuel (attempt + 1) st1
      | DeviceTokenResponseM.threw msg stc =>
        if strContains msg "401" || stc == some 401 then
          flowReturn FlowOutcome.errorTerminal st1 none
        else if strContains msg "429" || stc == some 429 then
          flowReturn FlowOutcome.rateLimited st1 none
        else if cancelledAt cancelAt st1.t then
          flowReturn FlowOutcome.cancelled st1 none
        else
          runPollLoop resps cancelAt fuel (attempt + 1)
            { st1 with t := st1.t + st1.interval }

/-- maxAttempts (qwenOAuth2.ts lines 639-641):
Math.ceil(expires_in / (pollInterval / 1000)) computed with the
initial pollInterval of 2000ms, i.e. the ceiling of expires_in / 2. -/
def maxAttemptsFor (expiresIn : Nat) : Nat := (expiresIn + 1) / 2

/-- The polling portion of authWithDeltaDeviceFlow: initial interval
2000ms, at most maxAttemptsFor expiresIn iterations, timeout when the
attempts are exhausted. -/
def authDeviceFlowPolling (expiresIn : Nat)
    (resps : Nat → DeviceTokenResponseM) (cancelAt : Option Nat) : FlowRun :=
  runPollLoop resps cancelAt (maxAttemptsFor expiresIn) 0
    { t := 0, interval := 2000, pollTimes := [], waits := [] }

/-- The JSON object pollDeviceToken hands back for a pending poll. -/
def pendingJson (sd : Bool) : TokenJson :=
  { status := some "pending", slowDown := if sd then some true else none }

/-- A pending DeviceTokenResponse as the polling loop receives it. -/
def pendingResponse (sd : Bool) : DeviceTokenResponseM :=
  DeviceTokenResponseM.body (pendingJson sd)

/-- Poll response sequence Pending, Pending slow-down, Success for the
C6 backoff scenario. -/
def backoffStream : Nat → DeviceTokenResponseM
  | 0 => pendingResponse false
  | 1 => pendingResponse true
  | _ => DeviceTokenResponseM.body
      { access_token := some "final_token", refresh_token := some "rt",
        token_type := some "Bearer", expires_in := some 3600 }

/-- C6: for the response sequence Pending, Pending slow-down, Success,
the first pending resets the interval to 2000ms and the slow-down
pending multiplies it by 1.5 (capped at 10000ms), so the second wait
(3000ms) strictly exceeds the first (2000ms); the flow ends in
success carrying the final response's token.  The update rule itself
never exceeds the 10000ms cap and a non-slow-down pending always
resets to 2000ms. -/
theorem device_flow_backoff_sequence :
    (authDeviceFlowPolling 10 backoffStream none).outcome
      = FlowOutcome.success
          { access_token := some "final_token", refresh_token := some "rt",
            id_token := none, expiry_date := some 3605000,
            token_type := some "Bearer", resource_url := none }
    ∧ (authDeviceFlowPolling 10 backoffStream none).waits = [2000, 3000]
    ∧ 2000 < 3000
    ∧ (∀ i, nextPollInterval true i ≤ 10000)
    ∧ (∀ i, nextPollInterval false i = 2000) := by
  refine ⟨by decide, by decide, by decide, ?_, fun i => rfl⟩
  intro i
  simp only [nextPollInterval, if_true]
  exact min_le_right _ _

lemma cancelledAt_none (t : Nat) : cancelledAt none t = false := rfl

lemma runPollLoop_length_le (resps : Nat → DeviceTokenResponseM)
    (cancelAt : Option Nat) : ∀ (fuel attempt : Nat) (st : FlowState),
    ((runPollLoop resps cancelAt fuel attempt st).pollTimes).length
      ≤ st.pollTimes.length + fuel := by
  intro fuel
  induction fuel with
  | zero =>
    intro attempt st
    simp [runPollLoop, flowReturn]
  | succ f ih =>
    intro attempt st
    simp only [runPollLoop]
    repeat' split
    all_goals
      first
      | (simp [flowReturn, afterWait]; done)
      | (simp [flowReturn, afterWait]; omega)
      | (refine le_trans (ih _ _) ?_; simp [afterWait]; done)
      | (refine le_trans (ih _ _) ?_; simp [afterWait]; omega)

lemma pendingJson_not_success (sd : Bool) :
    isDeviceTokenSuccess (pendingJson sd) = false := by
  cases sd <;> rfl

lemma pendingJson_pending (sd : Bool) :
    isDeviceTokenPending (pendingJson sd) = true := by
  cases sd <;> rfl

lemma runPollLoop_allPending_timeout (resps : Nat → DeviceTokenResponseM)
    (hp : ∀ n, ∃ sd, resps n = pendingResponse sd) :
    ∀ (fuel attempt : Nat) (st : FlowState),
      (runPollLoop resps none fuel attempt st).outcome = FlowOutcome.timeout
      ∧ ((runPollLoop resps none fuel attempt st).pollTimes).length
          = st.pollTimes.length + fuel := by
  intro fuel
  induction fuel with
  | zero =>
    intro attempt st
    simp [runPollLoop, flowReturn]
  | succ f ih =>
    intro attempt st
    obtain ⟨sd, hsd⟩ := hp attempt
    simp only [runPollLoop, cancelledAt_none, Bool.false_eq_true, if_false]
    rw [hsd]
    simp only [pendingResponse, pendingJson_not_success, pendingJson_pending,
      Bool.false_eq_true, if_false, if_true]
    constructor
    · exact (ih _ _).1
    · refine Eq.trans (ih _ _).2 ?_
      simp [afterWait]
      omega

/-- C7: maxAttemptsFor is the ceiling of expires_in / 2 seconds (the
division by the initial 2000ms poll interval); the polling loop issues
at most that many poll requests for any response stream; and when
every response is pending (and no cancel arrives) the flow ends in
the timeout terminal state after exactly maxAttempts polls. -/
theorem polling_attempt_bound_and_timeout (expiresIn : Nat)
    (resps : Nat → DeviceTokenResponseM) (cancelAt : Option Nat) :
    expiresIn ≤ 2 * maxAttemptsFor expiresIn
    ∧ 2 * maxAttemptsFor expiresIn ≤ expiresIn + 1
    ∧ ((authDeviceFlowPolling expiresIn resps cancelAt).pollTimes).length
        ≤ maxAttemptsFor expiresIn
    ∧ ((∀ n, ∃ sd, resps n = pendingResponse sd) → cancelAt = none →
        (authDeviceFlowPolling expiresIn resps cancelAt).outcome = FlowOutcome.timeout
        ∧ ((authDeviceFlowPolling expiresIn resps cancelAt).pollTimes).length
            = maxAttemptsFor expiresIn) := by
  refine ⟨?_, ?_, ?_, ?_⟩
  · simp only [maxAttemptsFor]
    omega
  · simp only [maxAttemptsFor]
    omega
  · have h := runPollLoop_length_le resps cancelAt (maxAttemptsFor expiresIn) 0
      { t := 0, interval := 2000, pollTimes := [], waits := [] }
    simpa [authDeviceFlowPolling] using h
  · rintro hp rfl
    have h := runPollLoop_allPending_timeout resps hp (maxAttemptsFor expiresIn) 0
      { t := 0, interval := 2000, pollTimes := [], waits := [] }
    simpa [authDeviceFlowPolling] using h

/-- Closed instance of polling_attempt_bound_and_timeout: expires_in
of 5 seconds gives ceil(5/2) = 3 attempts, all pending, timeout. -/
theorem polling_attempt_bound_and_timeout_instance :
    (authDeviceFlowPolling 5 (fun _ => pendingResponse true) none).outcome
      = FlowOutcome.timeout
    ∧ ((authDeviceFlowPolling 5 (fun _ => pendingResponse true) none).pollTimes).length = 3 :=
  (polling_attempt_bound_and_timeout 5 (fun _ => pendingResponse true) none).2.2.2
    (fun _ => ⟨true, rfl⟩) rfl

lemma runPollLoop_polls_lt_cancel (resps : Nat → DeviceTokenResponseM) (c : Nat) :
    ∀ (fuel attempt : Nat) (st : FlowState),
      (∀ y ∈ st.pollTimes, y < c) →
      ∀ x ∈ (runPollLoop resps (some c) fuel attempt st).pollTimes, x < c := by
  intro fuel
  induction fuel with
  | zero =>
    intro attempt st hinv x hx
    simp [runPollLoop, flowReturn] at hx
    exact hinv x hx
  | succ f ih =>
    intro attempt st hinv x hx
    simp only [runPollLoop] at hx
    by_cases hc : cancelledAt (some c) st.t = true
    · simp [hc, flowReturn] at hx
      exact hinv x hx
    · have hlt : st.t < c := by
        simp [cancelledAt] at hc
        omega
      have hinv1 : ∀ y ∈ st.t :: st.pollTimes, y < c := by
        intro y hy
        rcases List.mem_cons.mp hy with rfl | hy2
        · exact hlt
        · exact hinv y hy2
      simp only [hc, if_false, Bool.false_eq_true] at hx
      repeat' split at hx
      all_goals
        first
        | (simp [flowReturn, afterWait] at hx
           rcases hx with hx | rfl
           · exact hinv x hx
           · exact hlt)
        | (exact ih _ _ hinv1 x hx)

lemma runPollLoop_allPending_cancel (resps : Nat → DeviceTokenResponseM) (c : Nat)
    (hp : ∀ n, ∃ sd, resps n = pendingResponse sd) :
    ∀ (fuel attempt : Nat) (st : FlowState), st.t < c →
      (runPollLoop resps (some c) fuel attempt st).outcome = FlowOutcome.cancelled
      ∨ (runPollLoop resps (some c) fuel attempt st).finalTime < c := by
  intro fuel
  induction fuel with
  | zero =>
    intro attempt st hst
    right
    simpa [runPollLoop, flowReturn] using hst
  | succ f ih =>
    intro attempt st hst
    obtain ⟨sd, hsd⟩ := hp attempt
    have hc : ¬(cancelledAt (some c) st.t = true) := by
      simp [cancelledAt]
      omega
    simp only [runPollLoop, hsd, pendingResponse, pendingJson_not_success,
      pendingJson_pending, Bool.false_eq_true, if_false, if_true, hc]
    split
    · left
      simp [flowReturn]
    · rename_i hc2
      refine ih (attempt + 1) _ ?_
      simp [cancelledAt] at hc2
      omega

lemma waitLoopAux_latency (c interval : Nat) :
    ∀ (fuel t elapsed : Nat), t < c →
      c ≤ waitLoopAux (some c) interval fuel t elapsed →
      waitLoopAux (some c) interval fuel t elapsed < c + 100 := by
  intro fuel
  induction fuel with
  | zero =>
    intro t elapsed ht hc
    simp [waitLoopAux] at hc ⊢
    omega
  | succ f ih =>
    intro t elapsed ht hc
    by_cases h1 : cancelledAt (some c) (t + 100) = true
    · simp only [waitLoopAux, h1, if_true] at hc ⊢
      simp [cancelledAt] at h1
      omega
    · by_cases h2 : interval ≤ elapsed + 100
      · simp only [waitLoopAux, h1, h2, Bool.false_eq_true, if_false, if_true] at hc ⊢
        simp [cancelledAt] at h1
        omega
      · have ht2 : t + 100 < c := by
          simp [cancelledAt] at h1
          omega
        simp only [waitLoopAux, h1, h2, Bool.false_eq_true, if_false] at hc ⊢
        exact ih (t + 100) (elapsed + 100) ht2 hc

/-- C8: with the cancel signal issued at time c, every poll request of
the device flow is issued at a time strictly before c (the flag is
checked before each poll, and again during the tick wait and after
it, so no poll is ever issued once the flag is set); if the responses
keep the loop polling and the flow is still running at time c it ends
in the cancelled terminal state; and the tick wait detects the flag
within one 100ms tick of it being set. -/
theorem cancellation_gates_device_flow (expiresIn : Nat)
    (resps : Nat → DeviceTokenResponseM) (c : Nat) :
    (∀ x ∈ (authDeviceFlowPolling expiresIn resps (some c)).pollTimes, x < c)
    ∧ ((∀ n, ∃ sd, resps n = pendingResponse sd) → 0 < c →
        c ≤ (authDeviceFlowPolling expiresIn resps (some c)).finalTime →
        (authDeviceFlowPolling expiresIn resps (some c)).outcome = FlowOutcome.cancelled)
    ∧ (∀ t i, t < c → c ≤ waitLoop (some c) t i →
        waitLoop (some c) t i < c + 100) := by
  refine ⟨?_, ?_, ?_⟩
  · intro x hx
    refine runPollLoop_polls_lt_cancel resps c (maxAttemptsFor expiresIn) 0
      { t := 0, interval := 2000, pollTimes := [], waits := [] } (by simp) x ?_
    simpa [authDeviceFlowPolling] using hx
  · intro hp hc hfin
    rcases runPollLoop_allPending_cancel resps c hp (maxAttemptsFor expiresIn) 0
      { t := 0, interval := 2000, pollTimes := [], waits := [] } hc with h | h
    · simpa [authDeviceFlowPolling] using h
    · exfalso
      simp only [authDeviceFlowPolling] at hfin
      omega
  · intro t i ht hc2
    simp only [waitLoop] at hc2 ⊢
    exact waitLoopAux_latency c i (i / 100 + 1) t 0 ht hc2

/-- Closed instance of cancellation_gates_device_flow: cancel issued
at t = 2500ms, during the second inter-poll wait; the flow ends
cancelled (at time 2500, one tick into that wait). -/
theorem cancellation_gates_device_flow_instance :
    (authDeviceFlowPolling 5 (fun _ => pendingResponse false) (some 2500)).outcome
      = FlowOutcome.cancelled :=
  (cancellation_gates_device_flow 5 (fun _ => pendingResponse false) 2500).2.1
    (fun _ => ⟨false, rfl⟩) (by decide) (by decide)

lemma runPollLoop_success_saved (resps : Nat → DeviceTokenResponseM)
    (cancelAt : Option Nat) : ∀ (fuel attempt : Nat) (st : FlowState)
      (creds : DeltaCredentials),
      (runPollLoop resps cancelAt fuel attempt st).outcome = FlowOutcome.success creds →
      (runPollLoop resps cancelAt fuel attempt st).saved = some creds := by
  intro fuel
  induction fuel with
  | zero =>
    intro attempt st creds h
    simp [runPollLoop, flowReturn] at h
  | succ f ih =>
    intro attempt st creds h
    simp only [runPollLoop] at h ⊢
    repeat' split
    all_goals simp_all [flowReturn]

/-- C9 (amended): on device-flow success the credential record is
built with expiry_date = now + expires_in * 1000 when expires_in is
present and nonzero (truthy), and with expiry_date absent when
expires_in is absent or zero; access_token is taken from the
response; and the success path persists exactly the built record to
the on-disk credential file. -/
theorem success_credentials_construction (j : TokenJson) (now : Int) :
    ((j.expires_in = none ∨ j.expires_in = some 0) →
      (buildDeviceFlowCredentials j now).expiry_date = none)
    ∧ (∀ e : Int, j.expires_in = some e → e ≠ 0 →
      (buildDeviceFlowCredentials j now).expiry_date = some (now + e * 1000))
    ∧ (buildDeviceFlowCredentials j now).access_token = j.access_token
    ∧ (∀ (expiresIn : Nat) (resps : Nat → DeviceTokenResponseM)
        (cancelAt : Option Nat) (creds : DeltaCredentials),
        (authDeviceFlowPolling expiresIn resps cancelAt).outcome
          = FlowOutcome.success creds →
        (authDeviceFlowPolling expiresIn resps cancelAt).saved = some creds) := by
  refine ⟨?_, ?_, rfl, ?_⟩
  · rintro (h | h) <;> simp [buildDeviceFlowCredentials, h]
  · intro e he hne
    simp [buildDeviceFlowCredentials, he, hne]
  · intro expiresIn resps cancelAt creds h
    exact runPollLoop_success_saved resps cancelAt _ _ _ creds h

/-- Token response used to instantiate
success_credentials_construction. -/
def successJsonW : TokenJson :=
  { access_token := some "a9", refresh_token := some "r9",
    token_type := some "Bearer", expires_in := some 3600 }

/-- Closed instance of success_credentials_construction. -/
theorem success_credentials_construction_instance :
    (buildDeviceFlowCredentials successJsonW 1000).expiry_date = some (1000 + 3600 * 1000)
    ∧ (authDeviceFlowPolling 2 (fun _ => DeviceTokenResponseM.body successJsonW) none).saved
      = some (buildDeviceFlowCredentials successJsonW 0) :=
  ⟨(success_credentials_construction successJsonW 1000).2.1 3600 rfl (by decide),
   (success_credentials_construction successJsonW 0).2.2.2 2
     (fun _ => DeviceTokenResponseM.body successJsonW) none
     (buildDeviceFlowCredentials successJsonW 0) (by decide)⟩
